import Mathlib

/-!
Shallow embedding of the grow-nugs game state engine
(`useGameState` hook, `PlantSlot` growth tick, `TradePanel` refresh gate).

Numbers: JavaScript `number` values that the program only ever holds as
integers (currencies, quantities, stats, quest counters, timestamps) are
embedded as `ℤ` or `ℕ`; values that carry one-decimal prices or fractional
multipliers are embedded as `ℚ`.  `Math.round` (half toward +∞),
`Math.floor` and `Math.min`/`Math.max` are embedded explicitly.
Randomness (`Math.random()`) is passed in as an explicit draw in `[0,1)`.
`Date.now()` is passed in as an explicit `now` argument.
-/

namespace GrowNugs

/-- JavaScript `Math.round`: rounds half toward positive infinity. -/
def jsRound (q : ℚ) : ℤ := ⌊q + 1/2⌋

/-- `Math.round(x * 10) / 10`: round to one decimal place. -/
def round1 (q : ℚ) : ℚ := (jsRound (q * 10) : ℚ) / 10

/-- JavaScript `Array.findIndex`, returning `none` instead of `-1`. -/
def findIdxO {α : Type} (p : α → Bool) : List α → Option ℕ
  | [] => none
  | a :: l => if p a then some 0 else (findIdxO p l).map (· + 1)

/-- JavaScript array indexing `l[i]` with an explicit fallback for the
out-of-range case (which the embedded code never hits). -/
def getIdxD {α : Type} (d : α) : List α → ℕ → α
  | [], _ => d
  | a :: _, 0 => a
  | _ :: l, i + 1 => getIdxD d l i

/-- `soilType: 'basic' | 'light-mix' | 'all-mix'`. -/
inductive SoilType
  | basic
  | lightMix
  | allMix
deriving DecidableEq, Repr

structure PlantModifiers where
  waterStacks : ℤ
  fertilizerApplied : Bool
  soilType : SoilType
  lastWaterTime : ℕ
  lastFertilizerTime : ℕ
  qualityMultiplier : ℚ
deriving DecidableEq, Repr

structure Plant where
  id : String
  strainId : String
  phaseIndex : ℕ
  elapsedInPhase : ℚ
  plantedAt : ℕ
  modifiers : PlantModifiers
deriving DecidableEq, Repr

structure TradeOffer where
  id : String
  quantity : ℤ
  pricePerBud : ℚ
deriving DecidableEq, Repr

structure GameEventEffects where
  priceMultiplier : Option ℚ := none
  quantityMultiplier : Option ℚ := none
  growthMultiplier : Option ℚ := none
deriving DecidableEq, Repr

structure GameEvent where
  id : String
  name : String
  description : String
  endsAt : ℕ
  effects : GameEventEffects
deriving DecidableEq, Repr

inductive QuestType
  | harvest
  | sell
  | water
deriving DecidableEq, Repr

structure QuestReward where
  nugs : Option ℤ := none
  buds : Option ℤ := none
deriving DecidableEq, Repr

structure Quest where
  id : String
  type : QuestType
  description : String
  goal : ℤ
  progress : ℤ
  reward : QuestReward
  claimed : Bool
deriving DecidableEq, Repr

structure TradeState where
  offers : List TradeOffer
  nextRefreshAt : ℕ
deriving DecidableEq, Repr

structure GameStats where
  totalHarvests : ℤ
  bestHarvest : ℤ
  totalNugsEarned : ℤ
  totalBudsHarvested : ℤ
  totalBudsSold : ℤ
  totalTrades : ℤ
deriving DecidableEq, Repr

structure GameSettings where
  sfxEnabled : Bool
  randomEventsEnabled : Bool
deriving DecidableEq, Repr

structure GameState where
  nugs : ℤ
  buds : ℤ
  slots : List (Option Plant)
  upgrades : List (String × ℤ)
  trade : TradeState
  event : Option GameEvent
  quests : List Quest
  stats : GameStats
  settings : GameSettings
deriving DecidableEq, Repr

def DEFAULT_QUESTS : List Quest :=
  [ { id := "q-h-1", type := .harvest, description := "Ernte 3 Pflanzen",
      goal := 3, progress := 0, reward := { nugs := some 75 }, claimed := false },
    { id := "q-s-1", type := .sell, description := "Verkaufe 100 Buds",
      goal := 100, progress := 0, reward := { nugs := some 150 }, claimed := false },
    { id := "q-w-1", type := .water, description := "Gieße 10x",
      goal := 10, progress := 0, reward := { buds := some 20 }, claimed := false } ]

def INITIAL_STATE : GameState :=
  { nugs := 100
    buds := 0
    slots := [none, none]
    upgrades := []
    trade := { offers := [], nextRefreshAt := 0 }
    event := none
    quests := DEFAULT_QUESTS
    stats := { totalHarvests := 0, bestHarvest := 0, totalNugsEarned := 0,
               totalBudsHarvested := 0, totalBudsSold := 0, totalTrades := 0 }
    settings := { sfxEnabled := true, randomEventsEnabled := true } }

/-- `addNugs`: adds `amount` to `nugs` (no clamp) and adds `max(0, amount)`
to `totalNugsEarned`. -/
def addNugs (amount : ℤ) (s : GameState) : GameState :=
  { s with
    nugs := s.nugs + amount
    stats := { s.stats with totalNugsEarned := s.stats.totalNugsEarned + max 0 amount } }

/-- `spendNugs`: subtracts when affordable, else declines; returns the flag. -/
def spendNugs (amount : ℤ) (s : GameState) : GameState × Bool :=
  if s.nugs ≥ amount then ({ s with nugs := s.nugs - amount }, true) else (s, false)

/-- `addBuds`: adds `amount` to `buds`, clamped below at 0. -/
def addBuds (amount : ℤ) (s : GameState) : GameState :=
  { s with buds := max 0 (s.buds + amount) }

/-- `spendBuds`: subtracts when affordable, else declines; returns the flag. -/
def spendBuds (amount : ℤ) (s : GameState) : GameState × Bool :=
  if s.buds ≥ amount then ({ s with buds := s.buds - amount }, true) else (s, false)

/-- `Math.floor(minQtyBase * qMult)` with `minQtyBase = Math.min(200, 5 + stage*10)`. -/
def offerMinQty (stage : ℤ) (qMult : ℚ) : ℤ := ⌊((min 200 (5 + stage * 10) : ℤ) : ℚ) * qMult⌋

/-- `Math.floor(maxQtyBase * qMult)` with `maxQtyBase = Math.min(400, 20 + stage*20)`. -/
def offerMaxQty (stage : ℤ) (qMult : ℚ) : ℤ := ⌊((min 400 (20 + stage * 20) : ℤ) : ℚ) * qMult⌋

/-- `generateTradeOffers` per-offer quantity and price computation.
`stage = Math.floor(totalHarvests / 5)`; `r1, r2` are the two
`Math.random()` draws of this offer. -/
def mkTradeOffer (stage : ℤ) (qMult pMult : ℚ) (now i : ℕ) (r1 r2 : ℚ) : TradeOffer :=
  let minQty : ℤ := offerMinQty stage qMult
  let maxQty : ℤ := offerMaxQty stage qMult
  let qty : ℤ := max minQty ⌊(minQty : ℚ) + r1 * ((max 1 (maxQty - minQty + 1) : ℤ) : ℚ)⌋
  let basePrice : ℚ := 1 + r2 * 2
  let price : ℚ := min 4 (max 1 ((basePrice + (stage : ℚ) * (1/10)) * pMult))
  { id := "offer-" ++ toString now ++ "-" ++ toString i
    quantity := qty
    pricePerBud := round1 price }

/-- `generateTradeOffers`: replaces the offer list with 3 fresh offers and
sets `nextRefreshAt = now + 30000`.  `draws i` supplies the pair of
`Math.random()` draws consumed by offer `i`. -/
def generateTradeOffers (draws : ℕ → ℚ × ℚ) (now : ℕ) (s : GameState) : GameState :=
  let stage : ℤ := s.stats.totalHarvests.fdiv 5
  let qMult : ℚ := (s.event.bind (fun e => e.effects.quantityMultiplier)).getD 1
  let pMult : ℚ := (s.event.bind (fun e => e.effects.priceMultiplier)).getD 1
  let offers : List TradeOffer :=
    (List.range 3).map (fun i => mkTradeOffer stage qMult pMult now i (draws i).1 (draws i).2)
  { s with trade := { offers := offers, nextRefreshAt := now + 30000 } }

/-- `acceptTradeOffer`: find the offer; decline (state unchanged) when
missing or `buds < quantity`; otherwise exchange buds for nugs, bump the
lifetime stats, drop the offer and advance unclaimed sell quests. -/
def acceptTradeOffer (offerId : String) (s : GameState) : GameState × Bool :=
  match s.trade.offers.find? (fun o => o.id == offerId) with
  | none => (s, false)
  | some offer =>
    if s.buds < offer.quantity then (s, false)
    else
      let revenue : ℤ := ⌊(offer.quantity : ℚ) * offer.pricePerBud⌋
      ({ s with
          buds := s.buds - offer.quantity
          nugs := s.nugs + revenue
          stats := { s.stats with
            totalNugsEarned := s.stats.totalNugsEarned + revenue
            totalBudsSold := s.stats.totalBudsSold + offer.quantity
            totalTrades := s.stats.totalTrades + 1 }
          trade := { s.trade with
            offers := s.trade.offers.filter (fun o => o.id != offerId) }
          quests := s.quests.map (fun q =>
            if q.type == .sell && !q.claimed
            then { q with progress := min q.goal (q.progress + offer.quantity) }
            else q) },
        true)

def dummyOffer : TradeOffer := { id := "", quantity := 0, pricePerBud := 0 }

/-- `haggleTradeOffer`: find the offer; on a draw `< 0.4` raise its price to
`min(5, round1(price * 1.2))`, otherwise remove it (buyer walks away). -/
def haggleTradeOffer (r : ℚ) (offerId : String) (s : GameState) : GameState × Bool :=
  match findIdxO (fun o => o.id == offerId) s.trade.offers with
  | none => (s, false)
  | some idx =>
    let current := getIdxD dummyOffer s.trade.offers idx
    if r < 2/5 then
      let newPrice := round1 (current.pricePerBud * (6/5))
      ({ s with trade := { s.trade with
          offers := s.trade.offers.set idx { current with pricePerBud := min 5 newPrice } } },
        true)
    else
      ({ s with trade := { s.trade with offers := s.trade.offers.eraseIdx idx } },
        false)

def dummyQuest : Quest :=
  { id := "", type := .harvest, description := "", goal := 0, progress := 0,
    reward := {}, claimed := false }

/-- `claimQuestReward`: find the quest; decline when missing, already
claimed or unfinished; otherwise mark it claimed and credit its rewards. -/
def claimQuestReward (questId : String) (s : GameState) : GameState × Bool :=
  match findIdxO (fun q => q.id == questId) s.quests with
  | none => (s, false)
  | some idx =>
    let quest := getIdxD dummyQuest s.quests idx
    if quest.claimed || quest.progress < quest.goal then (s, false)
    else
      ({ s with
          quests := s.quests.set idx { quest with claimed := true }
          buds := s.buds + quest.reward.buds.getD 0
          nugs := s.nugs + quest.reward.nugs.getD 0 },
        true)

/-- `recordHarvest`: bump harvest stats and advance unclaimed harvest quests. -/
def recordHarvest (budsHarvested : ℤ) (s : GameState) : GameState :=
  { s with
    stats := { s.stats with
      totalHarvests := s.stats.totalHarvests + 1
      bestHarvest := max s.stats.bestHarvest budsHarvested
      totalBudsHarvested := s.stats.totalBudsHarvested + budsHarvested }
    quests := s.quests.map (fun q =>
      if q.type == .harvest && !q.claimed
      then { q with progress := min q.goal (q.progress + 1) }
      else q) }

/-- `recordWaterAction`: advance unclaimed water quests by `count`. -/
def recordWaterAction (count : ℤ) (s : GameState) : GameState :=
  { s with
    quests := s.quests.map (fun q =>
      if q.type == .water && !q.claimed
      then { q with progress := min q.goal (q.progress + count) }
      else q) }

/-- The fixed preset effects of `triggerRandomEvent`. -/
def presetEffects : List GameEventEffects :=
  [ { priceMultiplier := some (3/2), quantityMultiplier := some (6/5) },
    { growthMultiplier := some (6/5) },
    { growthMultiplier := some (4/5) },
    { priceMultiplier := some (13/10) } ]

/-- An event value is one the program can actually hold: none, or one whose
effects come from the `triggerRandomEvent` preset list. -/
def eventValid (ev : Option GameEvent) : Prop :=
  ∀ e, ev = some e → e.effects ∈ presetEffects

/-! ## Persistence (`useGameState` initializer, autosave / `manualSave`)

`serialize` is `JSON.stringify` on a `GameState`: every top-level key is
present in the blob except `event`, which `JSON.stringify` omits when it is
`undefined`.  A parsed blob is embedded as a record of optional fields
(`none` = key absent), with `stats` and `trade` again records of optional
fields, since the loader spreads those two one level deeper. -/

structure SavedStats where
  totalHarvests : Option ℤ := none
  bestHarvest : Option ℤ := none
  totalNugsEarned : Option ℤ := none
  totalBudsHarvested : Option ℤ := none
  totalBudsSold : Option ℤ := none
  totalTrades : Option ℤ := none
deriving DecidableEq, Repr

structure SavedTrade where
  offers : Option (List TradeOffer) := none
  nextRefreshAt : Option ℕ := none
deriving DecidableEq, Repr

structure SavedBlob where
  nugs : Option ℤ := none
  buds : Option ℤ := none
  slots : Option (List (Option Plant)) := none
  upgrades : Option (List (String × ℤ)) := none
  trade : Option SavedTrade := none
  event : Option GameEvent := none
  quests : Option (List Quest) := none
  stats : Option SavedStats := none
  settings : Option GameSettings := none
deriving DecidableEq, Repr

/-- `JSON.stringify(state)`: every key present, `event` present exactly when
the state holds one. -/
def serialize (s : GameState) : SavedBlob :=
  { nugs := some s.nugs
    buds := some s.buds
    slots := some s.slots
    upgrades := some s.upgrades
    trade := some { offers := some s.trade.offers, nextRefreshAt := some s.trade.nextRefreshAt }
    event := s.event
    quests := some s.quests
    stats := some
      { totalHarvests := some s.stats.totalHarvests
        bestHarvest := some s.stats.bestHarvest
        totalNugsEarned := some s.stats.totalNugsEarned
        totalBudsHarvested := some s.stats.totalBudsHarvested
        totalBudsSold := some s.stats.totalBudsSold
        totalTrades := some s.stats.totalTrades }
    settings := some s.settings }

/-- The loader's shallow merge
`{...INITIAL_STATE, ...parsed, stats: {...INITIAL_STATE.stats, ...(parsed?.stats || {})},
trade: {...INITIAL_STATE.trade, ...(parsed?.trade || {})}, quests: parsed?.quests || DEFAULT_QUESTS}`. -/
def mergeSaved (b : SavedBlob) : GameState :=
  { nugs := b.nugs.getD INITIAL_STATE.nugs
    buds := b.buds.getD INITIAL_STATE.buds
    slots := b.slots.getD INITIAL_STATE.slots
    upgrades := b.upgrades.getD INITIAL_STATE.upgrades
    trade :=
      { offers := (b.trade.bind (fun t => t.offers)).getD INITIAL_STATE.trade.offers
        nextRefreshAt :=
          (b.trade.bind (fun t => t.nextRefreshAt)).getD INITIAL_STATE.trade.nextRefreshAt }
    event := b.event
    quests := b.quests.getD DEFAULT_QUESTS
    stats :=
      { totalHarvests := (b.stats.bind (fun t => t.totalHarvests)).getD INITIAL_STATE.stats.totalHarvests
        bestHarvest := (b.stats.bind (fun t => t.bestHarvest)).getD INITIAL_STATE.stats.bestHarvest
        totalNugsEarned := (b.stats.bind (fun t => t.totalNugsEarned)).getD INITIAL_STATE.stats.totalNugsEarned
        totalBudsHarvested := (b.stats.bind (fun t => t.totalBudsHarvested)).getD INITIAL_STATE.stats.totalBudsHarvested
        totalBudsSold := (b.stats.bind (fun t => t.totalBudsSold)).getD INITIAL_STATE.stats.totalBudsSold
        totalTrades := (b.stats.bind (fun t => t.totalTrades)).getD INITIAL_STATE.stats.totalTrades }
    settings := b.settings.getD INITIAL_STATE.settings }

/-- The whole load path: an unparseable blob (`none`) falls back to the
default initial state; a parsed blob is merged with the defaults. -/
def deserialize (b : Option SavedBlob) : GameState :=
  match b with
  | none => INITIAL_STATE
  | some blob => mergeSaved blob

/-! ## Plant growth (`PlantSlot` tick)

`usePlantLogic` is not part of the specified source; its
`getTimeMultiplier(strainId)` enters here as an abstract multiplier
argument, and the phase catalog `PHASES` as an abstract duration list. -/

/-- `plant.modifiers.soilType === 'light-mix' ? 0.9 : 1.0`. -/
def soilMultiplier (t : SoilType) : ℚ := if t = .lightMix then 9/10 else 1

/-- Phase duration as `PlantSlot` computes it:
`PHASES[phaseIndex].duration * timeMultiplier * soilMultiplier`. -/
def phaseDurationCode (baseDuration timeMultiplier : ℚ) (soil : SoilType) : ℚ :=
  baseDuration * timeMultiplier * soilMultiplier soil

/-- Modelled from the spec: the spec's phase-duration formula
`baseDuration(phaseIndex) * strainGrowthMultiplier(strainId) *
soilMultiplier(soilType) * (activeEvent?.growthMultiplier ?? 1)`, which
additionally applies the active event's growth multiplier. -/
def phaseDurationSpec (baseDuration strainMultiplier : ℚ) (soil : SoilType)
    (eventGrowthMultiplier : Option ℚ) : ℚ :=
  baseDuration * strainMultiplier * soilMultiplier soil * eventGrowthMultiplier.getD 1

/-- The per-plant growth state the tick loop reads and writes:
`phaseIndex`/`stored` are the persisted `plant.phaseIndex` /
`plant.elapsedInPhase` (written through `onUpdate`), `localElapsed` is the
component's `localElapsed` counter. -/
structure GrowthTickState where
  phaseIndex : ℕ
  localElapsed : ℕ
  stored : ℕ
deriving DecidableEq, Repr

/-- One 1000 ms tick of the `PlantSlot` interval: increment the local
counter; past the phase duration advance to the next phase (resetting both
counters) unless already in the last phase; otherwise write the new elapsed
value back to the plant. `dur i` is the (already multiplied) duration of
phase `i` and `numPhases` is `PHASES.length`. -/
def growthTick (dur : ℕ → ℚ) (numPhases : ℕ) (p : GrowthTickState) : GrowthTickState :=
  let newElapsed := p.localElapsed + 1
  if (newElapsed : ℚ) ≥ dur p.phaseIndex then
    if p.phaseIndex + 1 < numPhases then
      { phaseIndex := p.phaseIndex + 1, localElapsed := 0, stored := 0 }
    else
      { p with localElapsed := newElapsed }
  else
    { phaseIndex := p.phaseIndex, localElapsed := newElapsed, stored := newElapsed }

/-- A freshly planted seed: `phaseIndex: 0, elapsedInPhase: 0`. -/
def initialGrowthState : GrowthTickState :=
  { phaseIndex := 0, localElapsed := 0, stored := 0 }

/-! ## Refresh gate (`TradePanel`) -/

/-- `canRefresh`: `Math.max(0, nextRefreshAt - now) === 0`. -/
def canRefresh (now nextRefreshAt : ℕ) : Bool :=
  max 0 ((nextRefreshAt : ℤ) - (now : ℤ)) == 0

/-- The refresh operation as wired: the panel disables the refresh button
unless `canRefresh`, so `generateTradeOffers` only runs once the cooldown
has elapsed. -/
def refreshOffers (draws : ℕ → ℚ × ℚ) (now : ℕ) (s : GameState) : GameState :=
  if canRefresh now s.trade.nextRefreshAt then generateTradeOffers draws now s else s

/-! ## Helper lemmas -/

theorem findIdxO_lt_length {α : Type} {p : α → Bool} {l : List α} {i : ℕ}
    (h : findIdxO p l = some i) : i < l.length := by
  induction l generalizing i with
  | nil => simp [findIdxO] at h
  | cons a t ih =>
    by_cases hp : p a
    · simp [findIdxO, hp] at h
      simp
      omega
    · simp [findIdxO, hp] at h
      obtain ⟨j, hj, rfl⟩ := h
      have := ih hj
      simp
      omega

theorem findIdxO_set_same_pred {α : Type} (p : α → Bool) (l : List α) (i : ℕ) (a d : α)
    (h : findIdxO p l = some i) (ha : p a = p (getIdxD d l i)) :
    findIdxO p (l.set i a) = some i := by
  induction l generalizing i with
  | nil => simp [findIdxO] at h
  | cons x t ih =>
    by_cases hp : p x
    · simp [findIdxO, hp] at h
      subst h
      simp [getIdxD] at ha
      simp [List.set, findIdxO, ha, hp]
    · simp [findIdxO, hp] at h
      obtain ⟨j, hj, rfl⟩ := h
      have ha' : p a = p (getIdxD d t j) := by simpa [getIdxD] using ha
      simp [List.set, findIdxO, hp, ih j hj ha']

theorem getIdxD_set_self {α : Type} (l : List α) (i : ℕ) (a d : α) (h : i < l.length) :
    getIdxD d (l.set i a) i = a := by
  induction l generalizing i with
  | nil => simp at h
  | cons x t ih =>
    cases i with
    | zero => simp [getIdxD]
    | succ j =>
      simp at h
      simpa [List.set, getIdxD] using ih j (by omega)

theorem getIdxD_mem_of_lt {α : Type} (l : List α) (i : ℕ) (d : α) (h : i < l.length) :
    getIdxD d l i ∈ l := by
  induction l generalizing i with
  | nil => simp at h
  | cons x t ih =>
    cases i with
    | zero => simp [getIdxD]
    | succ j =>
      simp at h
      exact List.mem_cons_of_mem _ (by simpa [getIdxD] using ih j (by omega))

theorem soilMultiplier_basic : soilMultiplier .basic = 1 := rfl

theorem soilMultiplier_lightMix : soilMultiplier .lightMix = 9/10 := rfl

theorem soilMultiplier_allMix : soilMultiplier .allMix = 1 := rfl

/-! ## Claim theorems -/

/-- C8: deserializing the serialized form of any state yields that state
back: the loader's shallow merge is the identity on a complete blob. -/
theorem save_roundTrip (s : GameState) : deserialize (some (serialize s)) = s := rfl

/-- C8 witness: the round trip is the identity on the initial state. -/
theorem save_roundTrip_witness :
    deserialize (some (serialize INITIAL_STATE)) = INITIAL_STATE :=
  save_roundTrip INITIAL_STATE

/-- C9: loading never fails fatally and is forward-compatible: an
unparseable blob yields the default initial state; a blob missing `quests`
yields the default quest catalog; missing top-level fields are filled from
defaults; `stats` and `trade` are merged field-by-field, each present
subfield kept and each absent subfield defaulted independently. -/
theorem load_forwardCompat :
    deserialize none = INITIAL_STATE ∧
    (∀ b : SavedBlob, b.quests = none → (deserialize (some b)).quests = DEFAULT_QUESTS) ∧
    (∀ b : SavedBlob, b.nugs = none → (deserialize (some b)).nugs = INITIAL_STATE.nugs) ∧
    (∀ b : SavedBlob, b.settings = none →
      (deserialize (some b)).settings = INITIAL_STATE.settings) ∧
    (∀ (b : SavedBlob) (st : SavedStats) (h : ℤ), b.stats = some st →
      st.totalHarvests = some h → (deserialize (some b)).stats.totalHarvests = h) ∧
    (∀ (b : SavedBlob) (st : SavedStats), b.stats = some st → st.totalTrades = none →
      (deserialize (some b)).stats.totalTrades = INITIAL_STATE.stats.totalTrades) ∧
    (∀ (b : SavedBlob) (t : SavedTrade) (n : ℕ), b.trade = some t →
      t.nextRefreshAt = some n → (deserialize (some b)).trade.nextRefreshAt = n) ∧
    (∀ (b : SavedBlob) (t : SavedTrade), b.trade = some t → t.offers = none →
      (deserialize (some b)).trade.offers = INITIAL_STATE.trade.offers) := by
  refine ⟨rfl, ?_, ?_, ?_, ?_, ?_, ?_, ?_⟩ <;>
    intros <;> simp_all [deserialize, mergeSaved]

/-- C9 witness: the empty blob (every field absent) loads to the default
quest catalog. -/
theorem load_forwardCompat_witness :
    (deserialize (some ({} : SavedBlob))).quests = DEFAULT_QUESTS :=
  load_forwardCompat.2.1 {} rfl

/-- C5: while `now < nextRefreshAt`, the refresh operation is a no-op:
the state (offers and `nextRefreshAt` included) is unchanged. -/
theorem refresh_rejected_during_cooldown (draws : ℕ → ℚ × ℚ) (now : ℕ) (s : GameState)
    (h : now < s.trade.nextRefreshAt) : refreshOffers draws now s = s := by
  have hfalse : canRefresh now s.trade.nextRefreshAt = false := by
    simp [canRefresh]
    omega
  simp [refreshOffers, hfalse]

/-- C5 witness: at `now = 5` against `nextRefreshAt = 10` the refresh is a
no-op. -/
theorem refresh_rejected_during_cooldown_witness :
    refreshOffers (fun _ => (0, 0)) 5
      { INITIAL_STATE with trade := { offers := [], nextRefreshAt := 10 } } =
      { INITIAL_STATE with trade := { offers := [], nextRefreshAt := 10 } } :=
  refresh_rejected_during_cooldown (fun _ => (0, 0)) 5 _ (by decide)

/-- C1: the growth step's phase duration ignores the active event's growth
multiplier.  At base duration 60, strain multiplier 1, basic soil and an
active `cosmic-alignment` event (`growthMultiplier 0.8`), the code computes
60 while the specified formula gives 48. -/
theorem phaseDuration_ignores_event :
    phaseDurationCode 60 1 .basic = 60 ∧
    phaseDurationSpec 60 1 .basic (some (4/5)) = 48 ∧
    phaseDurationCode 60 1 .basic ≠ phaseDurationSpec 60 1 .basic (some (4/5)) := by
  refine ⟨?_, ?_, ?_⟩ <;>
    norm_num [phaseDurationCode, phaseDurationSpec, soilMultiplier_basic]

/-- A sample state with one affordable offer, used to instantiate the trade
theorems. -/
def sampleOffer : TradeOffer := { id := "o1", quantity := 10, pricePerBud := 2 }

def sampleTradeState : GameState :=
  { INITIAL_STATE with buds := 50, trade := { offers := [sampleOffer], nextRefreshAt := 0 } }

/-- C2: haggling on a present offer has exactly one of two outcomes,
decided by the single draw against 0.4: on success the offer is kept with
its price multiplied by 1.2, rounded to one decimal and capped at 5 (the
offer count is unchanged); on failure the offer is removed (the count
drops by one); an unknown id leaves the state unchanged and reports
failure. -/
theorem haggle_dichotomy (s : GameState) (r : ℚ) (oid : String) :
    match findIdxO (fun o => o.id == oid) s.trade.offers with
    | none => haggleTradeOffer r oid s = (s, false)
    | some idx =>
      let current := getIdxD dummyOffer s.trade.offers idx
      let res := haggleTradeOffer r oid s
      (res.2 = true ↔ r < 2/5) ∧
      (r < 2/5 →
        res.1.trade.offers = s.trade.offers.set idx
          { current with pricePerBud := min 5 (round1 (current.pricePerBud * (6/5))) } ∧
        res.1.trade.offers.length = s.trade.offers.length) ∧
      (¬ r < 2/5 →
        res.1.trade.offers = s.trade.offers.eraseIdx idx ∧
        res.1.trade.offers.length + 1 = s.trade.offers.length) ∧
      res.1.trade.nextRefreshAt = s.trade.nextRefreshAt ∧
      res.1.nugs = s.nugs ∧ res.1.buds = s.buds ∧ res.1.quests = s.quests ∧
      res.1.stats = s.stats ∧ res.1.slots = s.slots ∧ res.1.event = s.event ∧
      res.1.settings = s.settings ∧ res.1.upgrades = s.upgrades := by
  cases h : findIdxO (fun o => o.id == oid) s.trade.offers with
  | none => simp [haggleTradeOffer, h]
  | some idx =>
    have hlt := findIdxO_lt_length h
    by_cases hr : r < 2/5
    · simp [haggleTradeOffer, h, hr]
    · simp [haggleTradeOffer, h, hr, List.length_eraseIdx, hlt]
      omega

/-- C2 witness: with draw 0 (a success) on the sample state, the haggle
reports success. -/
theorem haggle_dichotomy_witness : (haggleTradeOffer 0 "o1" sampleTradeState).2 = true := by
  have h := haggle_dichotomy sampleTradeState 0 "o1"
  rw [show findIdxO (fun o => o.id == "o1") sampleTradeState.trade.offers = some 0 from rfl] at h
  obtain ⟨h1, _, _⟩ := h
  exact h1.mpr (by norm_num)

/-- C3: accepting an offer declines with the state unchanged exactly when
the offer is missing or the buds are insufficient; otherwise it reports
acceptance, pays out `floor(quantity * pricePerBud)` nugs, deducts the
buds, removes the offer, bumps the lifetime stats and advances every
unclaimed sell quest by the quantity clamped to its goal, leaving all
other fields unchanged (and the state strictly changed). -/
theorem acceptOffer_spec (s : GameState) (oid : String) :
    match s.trade.offers.find? (fun o => o.id == oid) with
    | none => acceptTradeOffer oid s = (s, false)
    | some offer =>
      let res := acceptTradeOffer oid s
      (s.buds < offer.quantity → res = (s, false)) ∧
      (¬ s.buds < offer.quantity →
        res.2 = true ∧ res.1 ≠ s ∧
        res.1.buds = s.buds - offer.quantity ∧
        res.1.nugs = s.nugs + ⌊(offer.quantity : ℚ) * offer.pricePerBud⌋ ∧
        res.1.trade.offers = s.trade.offers.filter (fun o => o.id != oid) ∧
        res.1.trade.nextRefreshAt = s.trade.nextRefreshAt ∧
        res.1.stats.totalNugsEarned
          = s.stats.totalNugsEarned + ⌊(offer.quantity : ℚ) * offer.pricePerBud⌋ ∧
        res.1.stats.totalBudsSold = s.stats.totalBudsSold + offer.quantity ∧
        res.1.stats.totalTrades = s.stats.totalTrades + 1 ∧
        res.1.stats.totalHarvests = s.stats.totalHarvests ∧
        res.1.quests = s.quests.map (fun q =>
          if q.type == .sell && !q.claimed
          then { q with progress := min q.goal (q.progress + offer.quantity) }
          else q) ∧
        res.1.slots = s.slots ∧ res.1.event = s.event ∧ res.1.settings = s.settings) := by
  cases h : s.trade.offers.find? (fun o => o.id == oid) with
  | none => simp [acceptTradeOffer, h]
  | some offer =>
    by_cases hb : s.buds < offer.quantity
    · simp [acceptTradeOffer, h, hb]
    · simp [acceptTradeOffer, h, hb]
      intro heq
      have := congrArg (fun st => st.stats.totalTrades) heq
      simp only at this
      omega

/-- C3 witness: the sample offer is affordable, so accepting it reports
acceptance. -/
theorem acceptOffer_spec_witness : (acceptTradeOffer "o1" sampleTradeState).2 = true := by
  have h := acceptOffer_spec sampleTradeState "o1"
  rw [show sampleTradeState.trade.offers.find? (fun o => o.id == "o1") = some sampleOffer
    from rfl] at h
  obtain ⟨_, h2⟩ := h
  exact (h2 (by decide)).1

/-- C7: claiming a quest declines with the state unchanged when the quest
is missing, already claimed, or unfinished (`progress < goal`, which
includes `progress = goal - 1`); an unclaimed finished quest is claimed
exactly once: `claimed` is set, the optional rewards (absent means 0) are
credited, and a second claim of the same quest declines. -/
theorem claimQuestReward_of_claimed (qid : String) (s : GameState) (idx : ℕ)
    (hf : findIdxO (fun q => q.id == qid) s.quests = some idx)
    (hc : (getIdxD dummyQuest s.quests idx).claimed = true) :
    claimQuestReward qid s = (s, false) := by
  simp [claimQuestReward, hf, hc]

theorem questClaim_spec (s : GameState) (qid : String) :
    match findIdxO (fun q => q.id == qid) s.quests with
    | none => claimQuestReward qid s = (s, false)
    | some idx =>
      let quest := getIdxD dummyQuest s.quests idx
      let res := claimQuestReward qid s
      (quest.claimed = true → res = (s, false)) ∧
      (quest.progress < quest.goal → res = (s, false)) ∧
      (quest.claimed = false → ¬ quest.progress < quest.goal →
        res.2 = true ∧
        res.1.quests = s.quests.set idx { quest with claimed := true } ∧
        res.1.nugs = s.nugs + quest.reward.nugs.getD 0 ∧
        res.1.buds = s.buds + quest.reward.buds.getD 0 ∧
        claimQuestReward qid res.1 = (res.1, false)) := by
  cases h : findIdxO (fun q => q.id == qid) s.quests with
  | none => simp [claimQuestReward, h]
  | some idx =>
    have hlt := findIdxO_lt_length h
    refine ⟨?_, ?_, ?_⟩
    · intro hc
      simp [claimQuestReward, h, hc]
    · intro hp
      simp [claimQuestReward, h, hp]
    · intro hc hp
      have hcond : ¬ ((getIdxD dummyQuest s.quests idx).claimed = true
          ∨ (getIdxD dummyQuest s.quests idx).progress
            < (getIdxD dummyQuest s.quests idx).goal) := by
        simp [hc, hp]
      have hres : claimQuestReward qid s
          = ({ s with
                quests := s.quests.set idx
                  { getIdxD dummyQuest s.quests idx with claimed := true }
                buds := s.buds + (getIdxD dummyQuest s.quests idx).reward.buds.getD 0
                nugs := s.nugs + (getIdxD dummyQuest s.quests idx).reward.nugs.getD 0 },
              true) := by
        simp only [claimQuestReward, h]
        rw [if_neg]
        simpa using hcond
      refine ⟨by rw [hres], by rw [hres], by rw [hres], by rw [hres], ?_⟩
      have hfind : findIdxO (fun q => q.id == qid) (claimQuestReward qid s).1.quests
          = some idx := by
        rw [hres]
        exact findIdxO_set_same_pred _ _ _ _ dummyQuest h rfl
      have hget : getIdxD dummyQuest (claimQuestReward qid s).1.quests idx
          = { getIdxD dummyQuest s.quests idx with claimed := true } := by
        rw [hres]
        exact getIdxD_set_self _ _ _ _ hlt
      exact claimQuestReward_of_claimed qid _ idx hfind (by rw [hget])

/-- A finished, unclaimed sample quest with a nugs reward. -/
def sampleQuest : Quest :=
  { id := "q1", type := .harvest, description := "", goal := 5, progress := 5,
    reward := { nugs := some 10 }, claimed := false }

/-- A sample state with one finished, unclaimed quest. -/
def sampleQuestState : GameState :=
  { INITIAL_STATE with quests := [sampleQuest] }

/-- C7 witness: claiming the finished sample quest succeeds. -/
theorem questClaim_spec_witness : (claimQuestReward "q1" sampleQuestState).2 = true := by
  have h := questClaim_spec sampleQuestState "q1"
  rw [show findIdxO (fun q => q.id == "q1") sampleQuestState.quests = some 0 from rfl] at h
  obtain ⟨_, _, h3⟩ := h
  exact (h3 (by decide) (by decide)).1

/-- C6: across any sequence of growth ticks from a fresh plant the stored
`elapsedInPhase` stays within `[0, phaseDuration]` of the current phase,
`phaseIndex` never decreases at any step, and a plant in the last phase
stays there. -/
theorem growth_invariants (dur : ℕ → ℚ) (numPhases : ℕ) (hdur : ∀ i, 0 ≤ dur i) :
    (∀ p : GrowthTickState, p.phaseIndex ≤ (growthTick dur numPhases p).phaseIndex) ∧
    (∀ p : GrowthTickState, p.phaseIndex = numPhases - 1 →
      (growthTick dur numPhases p).phaseIndex = numPhases - 1) ∧
    (∀ k : ℕ,
      0 ≤ (((growthTick dur numPhases)^[k] initialGrowthState).stored : ℚ) ∧
      (((growthTick dur numPhases)^[k] initialGrowthState).stored : ℚ)
        ≤ dur ((growthTick dur numPhases)^[k] initialGrowthState).phaseIndex) := by
  have step : ∀ p : GrowthTickState, (p.stored : ℚ) ≤ dur p.phaseIndex →
      ((growthTick dur numPhases p).stored : ℚ)
        ≤ dur (growthTick dur numPhases p).phaseIndex := by
    intro p hp
    simp only [growthTick]
    split
    · split
      · simpa using hdur _
      · simpa using hp
    · rename_i hlt
      push_neg at hlt
      simpa using le_of_lt hlt
  refine ⟨?_, ?_, ?_⟩
  · intro p
    simp only [growthTick]
    split
    · split
      · simp
      · simp
    · simp
  · intro p hp
    simp only [growthTick]
    split
    · split
      · rename_i hnext
        omega
      · simpa using hp
    · simpa using hp
  · intro k
    induction k with
    | zero =>
      refine ⟨by simp, ?_⟩
      simpa [initialGrowthState] using hdur 0
    | succ n ih =>
      rw [Function.iterate_succ_apply']
      exact ⟨by positivity, step _ ih.2⟩

/-- C6 witness: with six phases of duration 60 the first tick does not
decrease the phase index of a fresh plant. -/
theorem growth_invariants_witness :
    initialGrowthState.phaseIndex
      ≤ (growthTick (fun _ => 60) 6 initialGrowthState).phaseIndex :=
  (growth_invariants (fun _ => 60) 6 (fun _ => by norm_num)).1 initialGrowthState

/-! ## Offer generation bounds -/

theorem mkTradeOffer_quantity (stage : ℤ) (qMult pMult : ℚ) (now i : ℕ) (r1 r2 : ℚ) :
    (mkTradeOffer stage qMult pMult now i r1 r2).quantity
      = max (offerMinQty stage qMult)
          ⌊((offerMinQty stage qMult : ℤ) : ℚ) + r1 *
            ((max 1 (offerMaxQty stage qMult - offerMinQty stage qMult + 1) : ℤ) : ℚ)⌋ := rfl

theorem mkTradeOffer_pricePerBud (stage : ℤ) (qMult pMult : ℚ) (now i : ℕ) (r1 r2 : ℚ) :
    (mkTradeOffer stage qMult pMult now i r1 r2).pricePerBud
      = round1 (min 4 (max 1 ((1 + r2 * 2 + (stage : ℚ) * (1/10)) * pMult))) := rfl

theorem round1_bounds {p : ℚ} (h1 : 1 ≤ p) (h4 : p ≤ 4) :
    1 ≤ round1 p ∧ round1 p ≤ 4 := by
  have hlow : (10 : ℤ) ≤ jsRound (p * 10) := by
    rw [jsRound]
    refine Int.le_floor.mpr ?_
    push_cast
    nlinarith
  have hhigh : jsRound (p * 10) ≤ 40 := by
    have : jsRound (p * 10) < 41 := by
      rw [jsRound, Int.floor_lt]
      push_cast
      nlinarith
    omega
  have hlow' : ((10 : ℤ) : ℚ) ≤ (jsRound (p * 10) : ℚ) := by exact_mod_cast hlow
  have hhigh' : (jsRound (p * 10) : ℚ) ≤ ((40 : ℤ) : ℚ) := by exact_mod_cast hhigh
  rw [round1]
  constructor
  · rw [le_div_iff₀ (by norm_num : (0:ℚ) < 10)]
    push_cast at hlow' ⊢
    linarith
  · rw [div_le_iff₀ (by norm_num : (0:ℚ) < 10)]
    push_cast at hhigh' ⊢
    linarith

theorem one_le_quantityMult {ev : Option GameEvent} (hev : eventValid ev) :
    1 ≤ (ev.bind (fun e => e.effects.quantityMultiplier)).getD 1 := by
  cases ev with
  | none => simp
  | some e =>
    have hm := hev e rfl
    simp [presetEffects] at hm
    rcases hm with h | h | h | h <;> simp [h] <;> norm_num

theorem offerMinQty_le_offerMaxQty {stage : ℤ} {qMult : ℚ}
    (hstage : 0 ≤ stage) (hq : 0 ≤ qMult) :
    offerMinQty stage qMult ≤ offerMaxQty stage qMult := by
  apply Int.floor_mono
  have hbase : (min 200 (5 + stage * 10) : ℤ) ≤ min 400 (20 + stage * 20) :=
    min_le_min (by norm_num) (by linarith)
  have hc : ((min 200 (5 + stage * 10) : ℤ) : ℚ) ≤ ((min 400 (20 + stage * 20) : ℤ) : ℚ) := by
    exact_mod_cast hbase
  exact mul_le_mul_of_nonneg_right hc hq

theorem five_le_offerMinQty {stage : ℤ} {qMult : ℚ} (hstage : 0 ≤ stage) (hq : 1 ≤ qMult) :
    5 ≤ offerMinQty stage qMult := by
  rw [offerMinQty, Int.le_floor]
  have hbase : (5 : ℤ) ≤ min 200 (5 + stage * 10) := le_min (by norm_num) (by linarith)
  have h0 : (0:ℚ) ≤ ((min 200 (5 + stage * 10) : ℤ) : ℚ) := by
    exact_mod_cast le_trans (by norm_num) hbase
  calc ((5:ℤ):ℚ) ≤ ((min 200 (5 + stage * 10) : ℤ) : ℚ) := by exact_mod_cast hbase
    _ = ((min 200 (5 + stage * 10) : ℤ) : ℚ) * 1 := (mul_one _).symm
    _ ≤ ((min 200 (5 + stage * 10) : ℤ) : ℚ) * qMult := mul_le_mul_of_nonneg_left hq h0

theorem mkTradeOffer_quantity_bounds (stage : ℤ) (qMult pMult : ℚ) (now i : ℕ) (r1 r2 : ℚ)
    (hstage : 0 ≤ stage) (hq : 1 ≤ qMult) (hr0 : 0 ≤ r1) (hr1 : r1 < 1) :
    offerMinQty stage qMult ≤ (mkTradeOffer stage qMult pMult now i r1 r2).quantity ∧
    (mkTradeOffer stage qMult pMult now i r1 r2).quantity ≤ offerMaxQty stage qMult := by
  rw [mkTradeOffer_quantity]
  have hmM : offerMinQty stage qMult ≤ offerMaxQty stage qMult :=
    offerMinQty_le_offerMaxQty hstage (by linarith)
  set m := offerMinQty stage qMult
  set M := offerMaxQty stage qMult
  have hspan : max 1 (M - m + 1) = M - m + 1 := max_eq_right (by omega)
  refine ⟨le_max_left _ _, ?_⟩
  have hfl : ⌊(m : ℚ) + r1 * ((max 1 (M - m + 1) : ℤ) : ℚ)⌋ ≤ M := by
    rw [hspan]
    have hpos : (0:ℚ) < ((M - m + 1 : ℤ) : ℚ) := by
      exact_mod_cast (by omega : (0:ℤ) < M - m + 1)
    have hmul : r1 * ((M - m + 1 : ℤ) : ℚ) < 1 * ((M - m + 1 : ℤ) : ℚ) :=
      mul_lt_mul_of_pos_right hr1 hpos
    have hlt : (m : ℚ) + r1 * ((M - m + 1 : ℤ) : ℚ) < ((M + 1 : ℤ) : ℚ) := by
      push_cast at hmul ⊢
      linarith
    have := Int.floor_lt.mpr hlt
    omega
  exact max_le hmM hfl

theorem mkTradeOffer_price_bounds (stage : ℤ) (qMult pMult : ℚ) (now i : ℕ) (r1 r2 : ℚ) :
    1 ≤ (mkTradeOffer stage qMult pMult now i r1 r2).pricePerBud ∧
    (mkTradeOffer stage qMult pMult now i r1 r2).pricePerBud ≤ 4 := by
  rw [mkTradeOffer_pricePerBud]
  exact round1_bounds (le_min (by norm_num) (le_max_left _ _)) (min_le_left _ _)

theorem mkTradeOffer_quantity_surjective (stage : ℤ) (qMult pMult : ℚ) (now i : ℕ) (k : ℤ)
    (hk1 : offerMinQty stage qMult ≤ k) (hk2 : k ≤ offerMaxQty stage qMult) :
    ∃ r1 : ℚ, 0 ≤ r1 ∧ r1 < 1 ∧
      (mkTradeOffer stage qMult pMult now i r1 0).quantity = k := by
  set m := offerMinQty stage qMult with hm
  set M := offerMaxQty stage qMult with hM
  have hS : (0:ℤ) < M - m + 1 := by omega
  have hS' : (0:ℚ) < ((M - m + 1 : ℤ) : ℚ) := by exact_mod_cast hS
  refine ⟨((k - m : ℤ) : ℚ) / ((M - m + 1 : ℤ) : ℚ), ?_, ?_, ?_⟩
  · apply div_nonneg
    · exact_mod_cast (by omega : (0:ℤ) ≤ k - m)
    · exact le_of_lt hS'
  · rw [div_lt_one hS']
    exact_mod_cast (by omega : k - m < M - m + 1)
  · rw [mkTradeOffer_quantity, ← hm, ← hM]
    have hspan : max 1 (M - m + 1) = M - m + 1 := max_eq_right (by omega)
    rw [hspan]
    have hcan : (m : ℚ) + ((k - m : ℤ) : ℚ) / ((M - m + 1 : ℤ) : ℚ) * ((M - m + 1 : ℤ) : ℚ)
        = ((k : ℤ) : ℚ) := by
      rw [div_mul_cancel₀ _ hS'.ne']
      push_cast
      ring
    rw [hcan, Int.floor_intCast]
    exact max_eq_right hk1

/-- C4: `generateTradeOffers` always produces exactly 3 offers and sets
`nextRefreshAt = now + 30000`; each offer is the per-offer formula applied
to its own pair of draws; with in-range draws, a stage derived from a
non-negative harvest count and a program event, every quantity lies in the
scaled inclusive range `[minQty, maxQty]` (hence is at least 1) and every
price is the stage/event formula clamped to `[1,4]` and rounded to one
decimal; conversely every value of the quantity range is attained by some
draw. -/
theorem generateOffers_spec (s : GameState) (draws : ℕ → ℚ × ℚ) (now : ℕ)
    (hev : eventValid s.event) (hh : 0 ≤ s.stats.totalHarvests)
    (hdraws : ∀ i, 0 ≤ (draws i).1 ∧ (draws i).1 < 1) :
    (generateTradeOffers draws now s).trade.offers.length = 3 ∧
    (generateTradeOffers draws now s).trade.nextRefreshAt = now + 30000 ∧
    (∀ i, i < 3 → getIdxD dummyOffer (generateTradeOffers draws now s).trade.offers i
      = mkTradeOffer (s.stats.totalHarvests.fdiv 5)
          ((s.event.bind (fun e => e.effects.quantityMultiplier)).getD 1)
          ((s.event.bind (fun e => e.effects.priceMultiplier)).getD 1)
          now i (draws i).1 (draws i).2) ∧
    (∀ o ∈ (generateTradeOffers draws now s).trade.offers,
      1 ≤ o.quantity ∧
      offerMinQty (s.stats.totalHarvests.fdiv 5)
        ((s.event.bind (fun e => e.effects.quantityMultiplier)).getD 1) ≤ o.quantity ∧
      o.quantity ≤ offerMaxQty (s.stats.totalHarvests.fdiv 5)
        ((s.event.bind (fun e => e.effects.quantityMultiplier)).getD 1) ∧
      1 ≤ o.pricePerBud ∧ o.pricePerBud ≤ 4 ∧
      (∃ i, i < 3 ∧ o.pricePerBud
        = round1 (min 4 (max 1 ((1 + (draws i).2 * 2
            + ((s.stats.totalHarvests.fdiv 5 : ℤ) : ℚ) * (1/10))
            * ((s.event.bind (fun e => e.effects.priceMultiplier)).getD 1)))))) ∧
    (∀ k : ℤ,
      offerMinQty (s.stats.totalHarvests.fdiv 5)
        ((s.event.bind (fun e => e.effects.quantityMultiplier)).getD 1) ≤ k →
      k ≤ offerMaxQty (s.stats.totalHarvests.fdiv 5)
        ((s.event.bind (fun e => e.effects.quantityMultiplier)).getD 1) →
      ∃ r1 : ℚ, 0 ≤ r1 ∧ r1 < 1 ∧
        (mkTradeOffer (s.stats.totalHarvests.fdiv 5)
          ((s.event.bind (fun e => e.effects.quantityMultiplier)).getD 1)
          ((s.event.bind (fun e => e.effects.priceMultiplier)).getD 1)
          now 0 r1 0).quantity = k) := by
  have hstage : 0 ≤ s.stats.totalHarvests.fdiv 5 := Int.fdiv_nonneg hh (by norm_num)
  have hq : 1 ≤ (s.event.bind (fun e => e.effects.quantityMultiplier)).getD 1 :=
    one_le_quantityMult hev
  refine ⟨rfl, rfl, ?_, ?_, ?_⟩
  · intro i hi
    interval_cases i <;> rfl
  · intro o ho
    simp only [generateTradeOffers, List.mem_map, List.mem_range] at ho
    obtain ⟨i, hi, rfl⟩ := ho
    obtain ⟨hm, hM⟩ := mkTradeOffer_quantity_bounds _ _ _ now i _ (draws i).2
      hstage hq (hdraws i).1 (hdraws i).2
    refine ⟨?_, hm, hM, (mkTradeOffer_price_bounds _ _ _ now i _ _).1,
      (mkTradeOffer_price_bounds _ _ _ now i _ _).2, i, hi, mkTradeOffer_pricePerBud _ _ _ _ _ _ _⟩
    have h5 : (5:ℤ) ≤ offerMinQty (s.stats.totalHarvests.fdiv 5)
        ((s.event.bind (fun e => e.effects.quantityMultiplier)).getD 1) :=
      five_le_offerMinQty hstage hq
    omega
  · intro k hk1 hk2
    exact mkTradeOffer_quantity_surjective _ _ _ now 0 k hk1 hk2

/-- C4 witness: at the initial state (stage 0, no event) with draws 0, the
generated offer list has length 3. -/
theorem generateOffers_spec_witness :
    (generateTradeOffers (fun _ => (0, 0)) 0 INITIAL_STATE).trade.offers.length = 3 :=
  (generateOffers_spec INITIAL_STATE (fun _ => (0, 0)) 0
    (fun e he => by simp [INITIAL_STATE] at he) (by decide)
    (fun i => ⟨le_refl 0, by norm_num⟩)).1

/-! ## Currency non-negativity -/

theorem round1_nonneg {q : ℚ} (h : 0 ≤ q) : 0 ≤ round1 q := by
  rw [round1]
  apply div_nonneg _ (by norm_num)
  have : (0:ℤ) ≤ jsRound (q * 10) := by
    rw [jsRound]
    apply Int.floor_nonneg.mpr
    nlinarith
  exact_mod_cast this

/-- The reachability invariant behind the currency claim: non-negative
currencies, together with the auxiliary facts (offer fields non-negative,
quest rewards non-negative, the event one of the presets, harvest counter
non-negative) that the operations themselves maintain and that the
currency updates rely on. -/
def Inv (s : GameState) : Prop :=
  0 ≤ s.nugs ∧ 0 ≤ s.buds ∧
  (∀ o ∈ s.trade.offers, 0 ≤ o.quantity ∧ 0 ≤ o.pricePerBud) ∧
  (∀ q ∈ s.quests, 0 ≤ q.reward.nugs.getD 0 ∧ 0 ≤ q.reward.buds.getD 0) ∧
  eventValid s.event ∧ 0 ≤ s.stats.totalHarvests

theorem Inv_initial : Inv INITIAL_STATE := by
  refine ⟨by decide, by decide, by simp [INITIAL_STATE], ?_, ?_, by decide⟩
  · intro q hq
    simp [INITIAL_STATE, DEFAULT_QUESTS] at hq
    rcases hq with h | h | h <;> subst h <;> decide
  · intro e he
    simp [INITIAL_STATE] at he

/-- C10 counterexample: from the initial state, whose currencies are
non-negative, `addNugs(-200)` drives `nugs` to −100 < 0. -/
theorem addNugs_negative_breaks_nonneg :
    0 ≤ INITIAL_STATE.nugs ∧ 0 ≤ INITIAL_STATE.buds ∧
    (addNugs (-200) INITIAL_STATE).nugs < 0 := by decide

/-- C10 (amended): the initial state satisfies the invariant, and every
listed operation preserves it for all argument values except that `addNugs`
requires a non-negative amount; the invariant entails that both currencies
stay non-negative. -/
theorem currency_nonneg_preserved :
    Inv INITIAL_STATE ∧
    (∀ (s : GameState) (amount : ℤ), 0 ≤ amount → Inv s → Inv (addNugs amount s)) ∧
    (∀ (s : GameState) (amount : ℤ), Inv s → Inv (spendNugs amount s).1) ∧
    (∀ (s : GameState) (amount : ℤ), Inv s → Inv (addBuds amount s)) ∧
    (∀ (s : GameState) (amount : ℤ), Inv s → Inv (spendBuds amount s).1) ∧
    (∀ (s : GameState) (oid : String), Inv s → Inv (acceptTradeOffer oid s).1) ∧
    (∀ (s : GameState) (r : ℚ) (oid : String), Inv s → Inv (haggleTradeOffer r oid s).1) ∧
    (∀ (s : GameState) (qid : String), Inv s → Inv (claimQuestReward qid s).1) ∧
    (∀ (s : GameState) (draws : ℕ → ℚ × ℚ) (now : ℕ),
      Inv s → Inv (generateTradeOffers draws now s)) ∧
    (∀ s : GameState, Inv s → 0 ≤ s.nugs ∧ 0 ≤ s.buds) := by
  refine ⟨Inv_initial, ?_, ?_, ?_, ?_, ?_, ?_, ?_, ?_, fun s hs => ⟨hs.1, hs.2.1⟩⟩
  · -- addNugs
    rintro s amount ha ⟨h1, h2, h3, h4, h5, h6⟩
    exact ⟨add_nonneg h1 ha, h2, h3, h4, h5, h6⟩
  · -- spendNugs
    rintro s amount ⟨h1, h2, h3, h4, h5, h6⟩
    by_cases h : s.nugs ≥ amount
    · have hr : (spendNugs amount s).1 = { s with nugs := s.nugs - amount } := by
        simp [spendNugs, h]
      rw [hr]
      exact ⟨sub_nonneg.mpr h, h2, h3, h4, h5, h6⟩
    · have hr : (spendNugs amount s).1 = s := by simp [spendNugs, h]
      rw [hr]
      exact ⟨h1, h2, h3, h4, h5, h6⟩
  · -- addBuds
    rintro s amount ⟨h1, h2, h3, h4, h5, h6⟩
    exact ⟨h1, le_max_left 0 _, h3, h4, h5, h6⟩
  · -- spendBuds
    rintro s amount ⟨h1, h2, h3, h4, h5, h6⟩
    by_cases h : s.buds ≥ amount
    · have hr : (spendBuds amount s).1 = { s with buds := s.buds - amount } := by
        simp [spendBuds, h]
      rw [hr]
      exact ⟨h1, sub_nonneg.mpr h, h3, h4, h5, h6⟩
    · have hr : (spendBuds amount s).1 = s := by simp [spendBuds, h]
      rw [hr]
      exact ⟨h1, h2, h3, h4, h5, h6⟩
  · -- acceptTradeOffer
    rintro s oid ⟨h1, h2, h3, h4, h5, h6⟩
    cases h : s.trade.offers.find? (fun o => o.id == oid) with
    | none =>
      have hr : (acceptTradeOffer oid s).1 = s := by simp [acceptTradeOffer, h]
      rw [hr]
      exact ⟨h1, h2, h3, h4, h5, h6⟩
    | some offer =>
      obtain ⟨hq0, hp0⟩ := h3 offer (List.mem_of_find?_eq_some h)
      by_cases hb : s.buds < offer.quantity
      · have hr : (acceptTradeOffer oid s).1 = s := by simp [acceptTradeOffer, h, hb]
        rw [hr]
        exact ⟨h1, h2, h3, h4, h5, h6⟩
      · simp only [acceptTradeOffer, h, if_neg hb]
        refine ⟨?_, ?_, ?_, ?_, h5, h6⟩
        · show (0:ℤ) ≤ s.nugs + ⌊(offer.quantity : ℚ) * offer.pricePerBud⌋
          have hmul : (0:ℚ) ≤ (offer.quantity : ℚ) * offer.pricePerBud :=
            mul_nonneg (by exact_mod_cast hq0) hp0
          have hfl : (0:ℤ) ≤ ⌊(offer.quantity : ℚ) * offer.pricePerBud⌋ :=
            Int.floor_nonneg.mpr hmul
          linarith
        · show (0:ℤ) ≤ s.buds - offer.quantity
          omega
        · intro o ho
          exact h3 o (List.mem_of_mem_filter ho)
        · intro q hq
          rw [List.mem_map] at hq
          obtain ⟨q0, hq0', rfl⟩ := hq
          by_cases hc : (q0.type == QuestType.sell && !q0.claimed) = true
          · simpa [hc] using h4 q0 hq0'
          · simpa [hc] using h4 q0 hq0'
  · -- haggleTradeOffer
    rintro s r oid ⟨h1, h2, h3, h4, h5, h6⟩
    cases h : findIdxO (fun o => o.id == oid) s.trade.offers with
    | none =>
      have hr : (haggleTradeOffer r oid s).1 = s := by simp [haggleTradeOffer, h]
      rw [hr]
      exact ⟨h1, h2, h3, h4, h5, h6⟩
    | some idx =>
      have hlt := findIdxO_lt_length h
      obtain ⟨hcq, hcp⟩ := h3 _ (getIdxD_mem_of_lt s.trade.offers idx dummyOffer hlt)
      by_cases hsucc : r < 2/5
      · simp only [haggleTradeOffer, h, if_pos hsucc]
        refine ⟨h1, h2, ?_, h4, h5, h6⟩
        intro o ho
        rcases List.mem_or_eq_of_mem_set ho with h' | h'
        · exact h3 o h'
        · subst h'
          refine ⟨hcq, ?_⟩
          exact le_min (by norm_num) (round1_nonneg (by nlinarith))
      · simp only [haggleTradeOffer, h, if_neg hsucc]
        refine ⟨h1, h2, ?_, h4, h5, h6⟩
        intro o ho
        exact h3 o ((List.eraseIdx_sublist s.trade.offers idx).subset ho)
  · -- claimQuestReward
    rintro s qid ⟨h1, h2, h3, h4, h5, h6⟩
    cases h : findIdxO (fun q => q.id == qid) s.quests with
    | none =>
      have hr : (claimQuestReward qid s).1 = s := by simp [claimQuestReward, h]
      rw [hr]
      exact ⟨h1, h2, h3, h4, h5, h6⟩
    | some idx =>
      have hlt := findIdxO_lt_length h
      obtain ⟨hrn, hrb⟩ := h4 _ (getIdxD_mem_of_lt s.quests idx dummyQuest hlt)
      by_cases hc : ((getIdxD dummyQuest s.quests idx).claimed
          || decide ((getIdxD dummyQuest s.quests idx).progress
            < (getIdxD dummyQuest s.quests idx).goal)) = true
      · have hr : (claimQuestReward qid s).1 = s := by
          simp only [claimQuestReward, h]
          rw [if_pos]
          simpa using hc
        rw [hr]
        exact ⟨h1, h2, h3, h4, h5, h6⟩
      · have hr : claimQuestReward qid s
            = ({ s with
                  quests := s.quests.set idx
                    { getIdxD dummyQuest s.quests idx with claimed := true }
                  buds := s.buds + (getIdxD dummyQuest s.quests idx).reward.buds.getD 0
                  nugs := s.nugs + (getIdxD dummyQuest s.quests idx).reward.nugs.getD 0 },
                true) := by
          simp only [claimQuestReward, h]
          rw [if_neg]
          simpa using hc
        rw [hr]
        refine ⟨?_, ?_, h3, ?_, h5, h6⟩
        · show (0:ℤ) ≤ s.nugs + (getIdxD dummyQuest s.quests idx).reward.nugs.getD 0
          linarith
        · show (0:ℤ) ≤ s.buds + (getIdxD dummyQuest s.quests idx).reward.buds.getD 0
          linarith
        · intro q hq
          rcases List.mem_or_eq_of_mem_set hq with h' | h'
          · exact h4 q h'
          · subst h'
            exact ⟨hrn, hrb⟩
  · -- generateTradeOffers
    rintro s draws now ⟨h1, h2, h3, h4, h5, h6⟩
    have hstage : 0 ≤ s.stats.totalHarvests.fdiv 5 := Int.fdiv_nonneg h6 (by norm_num)
    have hq : 1 ≤ (s.event.bind (fun e => e.effects.quantityMultiplier)).getD 1 :=
      one_le_quantityMult h5
    refine ⟨h1, h2, ?_, h4, h5, h6⟩
    intro o ho
    simp only [generateTradeOffers, List.mem_map, List.mem_range] at ho
    obtain ⟨i, _, rfl⟩ := ho
    constructor
    · rw [mkTradeOffer_quantity]
      have h5' := five_le_offerMinQty hstage hq
      have := le_max_left (offerMinQty (s.stats.totalHarvests.fdiv 5)
        ((s.event.bind (fun e => e.effects.quantityMultiplier)).getD 1))
        ⌊((offerMinQty (s.stats.totalHarvests.fdiv 5)
            ((s.event.bind (fun e => e.effects.quantityMultiplier)).getD 1) : ℤ) : ℚ)
          + (draws i).1 * ((max 1 (offerMaxQty (s.stats.totalHarvests.fdiv 5)
              ((s.event.bind (fun e => e.effects.quantityMultiplier)).getD 1)
            - offerMinQty (s.stats.totalHarvests.fdiv 5)
              ((s.event.bind (fun e => e.effects.quantityMultiplier)).getD 1) + 1) : ℤ) : ℚ)⌋
      omega
    · have := (mkTradeOffer_price_bounds (s.stats.totalHarvests.fdiv 5)
        ((s.event.bind (fun e => e.effects.quantityMultiplier)).getD 1)
        ((s.event.bind (fun e => e.effects.priceMultiplier)).getD 1)
        now i (draws i).1 (draws i).2).1
      linarith

/-- C10 witness: adding 5 nugs to the initial state keeps the invariant. -/
theorem currency_nonneg_preserved_witness : Inv (addNugs 5 INITIAL_STATE) :=
  currency_nonneg_preserved.2.1 INITIAL_STATE 5 (by decide) currency_nonneg_preserved.1

end GrowNugs
